import Mathlib

/-!
Shallow embedding of `src/lab.c` (a minimal interactive shell: tokenizer,
whitespace normalizer, built-in dispatcher, session initialisation, history
printing), together with theorems settling the frozen claims about it.

Modelling conventions:
* A C string (`char *`) is a `List Char`; a possibly-NULL pointer is an
  `Option (List Char)`; the NULL pointer itself is `none`.
* A `char **` argument vector is modelled as the fixed-size buffer the code
  allocates: a `List (Option (List Char))` of length `arg_max`, whose cells
  hold either an owned token (`some tok`) or NULL (`none`).
* OS facilities (`getenv`, `getpwuid`, `chdir`, readline's `history_list`)
  are parameters of the embedding: an `OS` record supplies their observable
  behaviour, and results record the visible effects (return code, resulting
  working directory, messages emitted on the error stream, whether and with
  which argument `chdir` was invoked).
* `strdup`/`malloc` are modelled as always succeeding (the allocation-failure
  paths of the C code are about the allocator, not about the algorithm); note
  that the unconditional firing of the "strdup failed" branch in `cmd_parse`
  proved below is *not* an allocation failure — it is an array-indexing slip
  that fires even when every allocation succeeds.
-/

/-- The delimiter set of `strtok(line_copy, " \t")` in `cmd_parse`:
spaces and tabs. -/
def isDelim (c : Char) : Bool := c = ' ' || c = '\t'

/-- C `isspace` in the POSIX locale, used by `trim_white`:
space (0x20) and the characters 0x09–0x0D (tab, newline, vertical tab,
form feed, carriage return). -/
def c_isspace (c : Char) : Bool :=
  c.toNat = 0x20 || (0x9 ≤ c.toNat && c.toNat ≤ 0xD)

/-- The characters a `strtok` call returns: the maximal run of
non-delimiter characters at the head of the scan position. -/
def tokenChars : List Char → List Char
  | [] => []
  | c :: cs => if isDelim c then [] else c :: tokenChars cs

/-- The rest of the buffer after a `strtok` call consumed one token:
everything from the first delimiter after the token onwards. -/
def tokenRest : List Char → List Char
  | [] => []
  | c :: cs => if isDelim c then c :: cs else tokenRest cs

/-- The full sequence of tokens successive `strtok(·, " \t")` calls yield on
a buffer: maximal runs of non-delimiter characters, with no empty tokens
between consecutive delimiters.  Written with an explicit character-count
fuel so the recursion is structural (each step consumes at least one
character, so `l.length` fuel always suffices). -/
def strtokAllFuel : Nat → List Char → List (List Char)
  | 0, _ => []
  | _ + 1, [] => []
  | fuel + 1, c :: cs =>
    if isDelim c then strtokAllFuel fuel cs
    else (c :: tokenChars cs) :: strtokAllFuel fuel (tokenRest cs)

/-- All tokens `strtok` extracts from a buffer (see `strtokAllFuel`). -/
def strtokAll (l : List Char) : List (List Char) :=
  strtokAllFuel l.length l

/-- `strdup_failure` (lab.c:82): frees every argument string allocated so
far, the argument array and the line copy, prints
`"cmd_parse: strdup failed"` via `perror` to the error stream, and returns
NULL.  In the embedding only the NULL result is visible. -/
def strdup_failure : Option (List (Option (List Char))) := none

/-- The `while` loop of `cmd_parse` (lab.c:126–137) followed by the final
`args[index] = NULL` sentinel write.  The loop body is translated
statement-for-statement:

* `args[index++] = strdup(current_token)` becomes `args.set index (some t)`
  with the running index then incremented;
* the subsequent check `if (!args[index])` reads the cell at the *already
  incremented* index — i.e. the cell *after* the one just written, exactly
  as the C code does — and on finding NULL takes the `strdup_failure` path;
* `current_token = strtok(NULL, " \t")` becomes recursing on the remaining
  token list.

On loop exit (tokens exhausted, or `index < arg_max - 1` no longer holds)
the sentinel is written at `index` and the buffer returned. -/
def cmdParseLoop (argMax : Nat) :
    List (List Char) → List (Option (List Char)) → Nat →
    Option (List (Option (List Char)))
  | [], args, index => some (args.set index none)
  | t :: ts, args, index =>
    if index < argMax - 1 then
      let args2 := args.set index (some t)
      if args2.getD (index + 1) none = none then
        strdup_failure
      else
        cmdParseLoop argMax ts args2 (index + 1)
    else
      some (args.set index none)

/-- `cmd_parse` (lab.c:103): NULL line yields NULL; otherwise allocate an
`arg_max`-cell array (obtained from `sysconf(_SC_ARG_MAX)`; here a
parameter `argMax`), pre-set every cell to NULL, duplicate the line, and
run the `strtok` tokenizing loop (`cmdParseLoop`) starting at index 0. -/
def cmd_parse (line : Option (List Char)) (argMax : Nat) :
    Option (List (Option (List Char))) :=
  match line with
  | none => none
  | some l => cmdParseLoop argMax (strtokAll l) (List.replicate argMax none) 0

/-- `trim_white` (lab.c:167): NULL yields NULL; otherwise advance the start
pointer past leading `isspace` characters (`dropWhile`); if that hits the
terminator the (empty) remainder is returned; otherwise walk `end` back
from the last character over trailing `isspace` characters and write a
terminator after it.  The result is a view into the same buffer, modelled
as the corresponding sublist: dropping a whitespace prefix and a
whitespace suffix.  (The `end > line` guard of the trailing loop can never
be the reason the loop stops, because after the leading trim the first
character is not whitespace; dropping the trailing whitespace run is
therefore an exact translation.) -/
def trim_white : Option (List Char) → Option (List Char)
  | none => none
  | some l =>
    match l.dropWhile c_isspace with
    | [] => some []
    | c :: cs => some (((c :: cs).reverse.dropWhile c_isspace).reverse)

/-- The observable behaviour of the operating-system facilities `lab.c`
calls into: `getenv`, the passwd-database home directory of the real user
id (`getpwuid(getuid())->pw_dir`, `none` when the lookup fails), whether
`chdir` succeeds on a given path, the current working directory, and the
readline history list (`none` when empty/unavailable). -/
structure OS where
  env : List Char → Option (List Char)
  passwd_home : Option (List Char)
  chdir_ok : List Char → Bool
  cwd : List Char
  hist : Option (List (List Char))

/-- The observable outcome of a `change_dir` call: the `int` return value,
the resulting working directory, the messages written to the error stream,
and the path `chdir` was invoked with (`none` when `chdir` was never
called). -/
structure CdResult where
  ret : Int
  cwd : List Char
  stderrMsgs : List String
  chdirCalledWith : Option (List Char)

/-- The `chdir` attempt at the end of `change_dir` (lab.c:66–71): on
success return 0 with the working directory changed; on failure `perror`
prints `cd: <system error message>` to the error stream, −1 is returned
and the working directory is unchanged. -/
def attemptChdir (os : OS) (path : List Char) : CdResult :=
  if os.chdir_ok path then
    { ret := 0, cwd := path, stderrMsgs := [], chdirCalledWith := some path }
  else
    { ret := -1, cwd := os.cwd, stderrMsgs := ["cd: <system error message>"],
      chdirCalledWith := some path }

/-- `change_dir` (lab.c:48): `dir0` is `dir[0]`, the cell after `"cd"` in
the argument vector (NULL when `cd` was given no argument).  With no
argument the target falls back to `getenv("HOME")`, then to the passwd
entry of the real user id; if both are unavailable, print
`cd: Could not determine home directory` to the error stream and return
−1 *without calling `chdir`*.  Otherwise attempt the `chdir`. -/
def change_dir (os : OS) (dir0 : Option (List Char)) : CdResult :=
  match dir0 with
  | some p => attemptChdir os p
  | none =>
    match os.env ("HOME".toList) with
    | some h => attemptChdir os h
    | none =>
      match os.passwd_home with
      | some h => attemptChdir os h
      | none =>
        { ret := -1, cwd := os.cwd,
          stderrMsgs := ["cd: Could not determine home directory"],
          chdirCalledWith := none }

/-- One printed history line of `print_history` (lab.c:357):
`printf("%d.) %s\n", index+1, entry)`. -/
def formatEntry (n : Nat) (e : List Char) : List Char :=
  (Nat.repr n).toList ++ ".) ".toList ++ e

/-- The printing loop of `print_history` (lab.c:355–359): starting from
`index`, print each remaining entry as `<index+1>.) <text>`.  Produces the
list of standard-output lines. -/
def print_historyLoop (index : Nat) : List (List Char) → List (List Char)
  | [] => []
  | e :: es => formatEntry (index + 1) e :: print_historyLoop (index + 1) es

/-- The streams `print_history` writes: the standard-output lines and the
error-stream lines. -/
structure HistOut where
  stdout : List (List Char)
  stderr : List String

/-- `print_history` (lab.c:346): when `history_list()` is NULL
(empty/unavailable history) print `Command history is empty.` on the error
stream and produce no listing; otherwise print every entry, 1-indexed, in
order. -/
def print_history (entries : Option (List (List Char))) : HistOut :=
  match entries with
  | none => { stdout := [], stderr := ["Command history is empty."] }
  | some es => { stdout := print_historyLoop 0 es, stderr := [] }

/-- The observable outcome of a `do_builtin` call: whether the process
exited (the `exit` built-in never returns), the boolean `do_builtin`
returned (meaningful only when `exited = false`; for the `exit` row the
field records that the command was recognised), the operating-system state
afterwards, and the error-stream messages emitted. -/
structure BuiltinOutcome where
  exited : Bool
  ret : Bool
  os : OS
  stderrMsgs : List String

/-- `do_builtin` (lab.c:204): an empty vector (`argv[0]` is the NULL
sentinel) is not handled; `exit` destroys the session and terminates the
process; `cd` calls `change_dir(argv+1)` — whose first cell is `argv[1]`,
i.e. the head of the rest of the vector — and reports handled regardless
of the outcome; `history` calls `print_history` and reports handled; any
other first token is not handled. -/
def do_builtin (os : OS) (argv : List (List Char)) : BuiltinOutcome :=
  match argv with
  | [] => { exited := false, ret := false, os := os, stderrMsgs := [] }
  | arg0 :: rest =>
    if arg0 = "exit".toList then
      { exited := true, ret := true, os := os, stderrMsgs := [] }
    else if arg0 = "cd".toList then
      let r := change_dir os rest.head?
      { exited := false, ret := true, os := { os with cwd := r.cwd },
        stderrMsgs := r.stderrMsgs }
    else if arg0 = "history".toList then
      { exited := false, ret := true, os := os,
        stderrMsgs := (print_history os.hist).stderr }
    else
      { exited := false, ret := false, os := os, stderrMsgs := [] }

/-- `get_prompt` (lab.c:24): fetch the environment variable and `strdup`
its value when present, else `strdup("shell>")`.  The lookup is a
parameter `getenvF`; `strdup` is modelled as always succeeding, so the
result is never `none`.  Note the code tests only whether the variable is
*set* — an empty value is copied verbatim. -/
def get_prompt (getenvF : List Char → Option (List Char)) (env : List Char) :
    Option (List Char) :=
  match getenvF env with
  | some p => some p
  | none => some ("shell>".toList)

/-- The fields of `struct shell` that `sh_init`'s data part populates: the
owned prompt (`none` modelling a NULL pointer) and the terminal
descriptor. -/
structure shell where
  prompt : Option (List Char)
  shell_terminal : Nat

/-- The data part of `sh_init` (lab.c:275): set the prompt from
`get_prompt("MY_PROMPT")`, fall back to `strdup("shell>")` if that came
back NULL, and record standard input (descriptor 0) as the controlling
terminal.  The process-group and signal-disposition steps are OS side
effects with no data content and are outside the embedding. -/
def sh_init (getenvF : List Char → Option (List Char)) (sh : shell) : shell :=
  let sh1 : shell := { sh with prompt := get_prompt getenvF ("MY_PROMPT".toList) }
  let sh2 : shell :=
    if sh1.prompt = none then { sh1 with prompt := some ("shell>".toList) } else sh1
  { sh2 with shell_terminal := 0 }

/-- A concrete operating-system state used by witnesses: no environment
variables, no passwd entry, every `chdir` fails, empty history. -/
def osBare : OS :=
  { env := fun _ => none, passwd_home := none, chdir_ok := fun _ => false,
    cwd := "/".toList, hist := none }

/-- A concrete operating-system state with `HOME` set, used by witnesses. -/
def osHome : OS :=
  { osBare with env := fun v => if v = "HOME".toList then some ("/home/user1".toList) else none }

/-- A concrete operating-system state with `HOME` unset but a resolvable
passwd entry, used by witnesses. -/
def osPasswd : OS :=
  { osBare with passwd_home := some ("/home/user2".toList) }

/-- A concrete environment in which `MY_PROMPT` is set to the empty
string. -/
def envEmptyPrompt : List Char → Option (List Char) :=
  fun v => if v = "MY_PROMPT".toList then some [] else none

/-- An uninitialised shell structure fed to `sh_init`. -/
def shZero : shell :=
  { prompt := none, shell_terminal := 0 }

/-- Helper: the head of a non-empty `dropWhile` result does not satisfy the
predicate. -/
theorem dropWhile_head_false {α : Type} (p : α → Bool) :
    ∀ (l : List α) (c : α) (cs : List α), l.dropWhile p = c :: cs → p c = false := by
  intro l
  induction l with
  | nil => intro c cs h; simp [List.dropWhile] at h
  | cons a t ih =>
    intro c cs h
    rw [List.dropWhile_cons] at h
    by_cases hp : p a = true
    · rw [if_pos hp] at h
      exact ih c cs h
    · rw [if_neg hp] at h
      cases h
      simpa using hp

/-- Helper: a list whose head does not satisfy the predicate is unchanged
by `dropWhile`. -/
theorem dropWhile_eq_self_of_head {α : Type} (p : α → Bool) (l : List α) (x : α)
    (hh : l.head? = some x) (hx : p x = false) : l.dropWhile p = l := by
  cases l with
  | nil => rfl
  | cons a t =>
    simp only [List.head?_cons, Option.some.injEq] at hh
    subst hh
    rw [List.dropWhile_cons, if_neg (by simp [hx])]

/-- Helper: facts about the trailing-trim step of `trim_white`.  For a
buffer `c :: cs` whose head is not whitespace, the reversed
`dropWhile`-of-the-reverse is the buffer minus a whitespace suffix, its
head is still `c`, and its last character is not whitespace. -/
theorem trim_tail_facts (p : Char → Bool) (c : Char) (cs : List Char) (hc : p c = false) :
    ∃ b, (c :: cs) = ((c :: cs).reverse.dropWhile p).reverse ++ b ∧
      (∀ x ∈ b, p x = true) ∧
      (((c :: cs).reverse.dropWhile p).reverse).head? = some c ∧
      (∀ x, (((c :: cs).reverse.dropWhile p).reverse).getLast? = some x → p x = false) := by
  have hdnil : (c :: cs).reverse.dropWhile p ≠ [] := by
    intro hnil
    have hall := List.dropWhile_eq_nil_iff.mp hnil
    have hcmem : c ∈ (c :: cs).reverse := by simp
    have := hall c hcmem
    rw [hc] at this
    exact Bool.false_ne_true this
  refine ⟨((c :: cs).reverse.takeWhile p).reverse, ?_, ?_, ?_, ?_⟩
  · conv_lhs => rw [← List.reverse_reverse (c :: cs),
      ← List.takeWhile_append_dropWhile (p := p) (l := (c :: cs).reverse)]
    rw [List.reverse_append]
  · intro x hx
    rw [List.mem_reverse] at hx
    exact List.mem_takeWhile_imp hx
  · rw [List.head?_reverse]
    obtain ⟨pre, hpre⟩ := List.dropWhile_suffix (l := (c :: cs).reverse) p
    calc ((c :: cs).reverse.dropWhile p).getLast?
        = (pre ++ (c :: cs).reverse.dropWhile p).getLast? :=
          (List.getLast?_append_of_ne_nil pre hdnil).symm
      _ = ((c :: cs).reverse).getLast? := by rw [hpre]
      _ = some c := by rw [List.getLast?_reverse, List.head?_cons]
  · intro x hx
    rw [List.getLast?_reverse] at hx
    cases hd : (c :: cs).reverse.dropWhile p with
    | nil => exact absurd hd hdnil
    | cons y ys =>
      rw [hd] at hx
      simp only [List.head?_cons, Option.some.injEq] at hx
      subst hx
      exact dropWhile_head_false p _ _ _ hd

/-- Helper: the first iteration of the `cmd_parse` loop on the freshly
NULL-initialised buffer takes the `strdup_failure` branch: after
`args[index++] = strdup(...)` the check reads `args[index]`, the *next*
cell, which is still NULL. -/
theorem cmdParseLoop_firstToken (k : Nat) (t : List Char) (ts : List (List Char)) :
    cmdParseLoop (k + 2) (t :: ts) (List.replicate (k + 2) none) 0 = none := by
  have h01 : 0 < (k + 2) - 1 := by omega
  unfold cmdParseLoop
  rw [if_pos h01]
  rfl

/-- Helper: the printed lines of the `print_history` loop, characterised
positionally. -/
theorem print_historyLoop_getEntry (es : List (List Char)) :
    ∀ (k i : Nat), (print_historyLoop k es).get? i =
      (es.get? i).map (fun e => formatEntry (k + i + 1) e) := by
  induction es with
  | nil => intro k i; simp [print_historyLoop]
  | cons e t ih =>
    intro k i
    cases i with
    | zero => simp [print_historyLoop]
    | succ j =>
      have harith : k + 1 + j = k + (j + 1) := by omega
      simp only [print_historyLoop, List.get?_cons_succ, ih (k + 1) j, harith]

/-- C1: the claim says `cmd_parse` on a line of whitespace-delimited tokens
returns a non-null vector of exactly those tokens plus a sentinel.  The
code instead returns NULL for *every* line containing at least one token
(with at least two cells in the buffer, which `sysconf(_SC_ARG_MAX)`
always provides): after `args[index++] = strdup(...)` the success check
reads `args[index]` — the next, still-NULL cell — so the
`strdup_failure` path fires unconditionally on the first token. -/
theorem cmd_parse_drops_all_tokens (argMax : Nat) (l : List Char)
    (h2 : 2 ≤ argMax) (ht : strtokAll l ≠ []) :
    cmd_parse (some l) argMax = none := by
  obtain ⟨k, rfl⟩ : ∃ k, argMax = k + 2 := ⟨argMax - 2, by omega⟩
  have hdef : cmd_parse (some l) (k + 2) =
      cmdParseLoop (k + 2) (strtokAll l) (List.replicate (k + 2) none) 0 := rfl
  cases h : strtokAll l with
  | nil => exact absurd h ht
  | cons t ts =>
    rw [hdef, h]
    exact cmdParseLoop_firstToken k t ts

/-- C1 witness: `"ls -la /tmp"` does tokenize to `["ls", "-la", "/tmp"]`,
yet `cmd_parse` returns NULL on it (with the POSIX-minimum `ARG_MAX` of
4096 cells). -/
theorem cmd_parse_drops_all_tokens_witness :
    strtokAll ("ls -la /tmp".toList) = ["ls".toList, "-la".toList, "/tmp".toList] ∧
    (2 : Nat) ≤ 4096 ∧
    cmd_parse (some ("ls -la /tmp".toList)) 4096 = none :=
  ⟨by decide, by decide,
    cmd_parse_drops_all_tokens 4096 ("ls -la /tmp".toList) (by decide) (by decide)⟩

/-- C2: a NULL line yields a NULL result, and the empty line yields a
non-null buffer whose first cell is the sentinel (zero tokens). -/
theorem cmd_parse_null_and_empty (argMax : Nat) (h1 : 1 ≤ argMax) :
    cmd_parse none argMax = none ∧
    ∃ v, cmd_parse (some []) argMax = some v ∧
      v.getD 0 none = none ∧ v.length = argMax := by
  obtain ⟨k, rfl⟩ : ∃ k, argMax = k + 1 := ⟨argMax - 1, by omega⟩
  refine ⟨rfl, (List.replicate (k + 1) none).set 0 none, rfl, rfl, by simp⟩

/-- C2 witness: the two edge cases evaluated with the POSIX-minimum
`ARG_MAX` of 4096. -/
theorem cmd_parse_null_and_empty_witness :
    (1 : Nat) ≤ 4096 ∧
    (cmd_parse none 4096 = none ∧
      ∃ v, cmd_parse (some []) 4096 = some v ∧
        v.getD 0 none = none ∧ v.length = 4096) :=
  ⟨by decide, cmd_parse_null_and_empty 4096 (by decide)⟩

/-- C3: the claim says that when the token-count ceiling `ARG_MAX - 1` is
reached, tokenizing silently stops and the returned vector still ends in
the sentinel.  On a line with enough tokens to reach the ceiling
(here `arg_max = 3`, ceiling 2 tokens, line of 4 tokens) the code instead
returns NULL — it never gets past the first token, because the misplaced
strdup check (see C1) aborts the loop with an error report. -/
theorem cmd_parse_ceiling_not_silent :
    (strtokAll ("a b c d".toList)).length = 4 ∧
    cmd_parse (some ("a b c d".toList)) 3 = none :=
  ⟨by decide, by decide⟩

/-- C4: `trim_white` maps NULL to NULL, and on any buffer returns the
sublist obtained by removing a whitespace prefix and a whitespace suffix:
the input splits as `a ++ r ++ b` with `a` and `b` all-whitespace and the
result `r` neither starting nor ending in whitespace; an all-whitespace
buffer yields the empty string, and `"  ls -a  "` yields `"ls -a"`. -/
theorem trim_white_spec :
    trim_white none = none ∧
    (∀ l : List Char, ∃ r a b,
      trim_white (some l) = some r ∧
      l = a ++ r ++ b ∧
      (∀ x ∈ a, c_isspace x = true) ∧
      (∀ x ∈ b, c_isspace x = true) ∧
      (l.all c_isspace = true → r = []) ∧
      (∀ x, r.head? = some x → c_isspace x = false) ∧
      (∀ x, r.getLast? = some x → c_isspace x = false)) ∧
    trim_white (some ("  ls -a  ".toList)) = some ("ls -a".toList) := by
  refine ⟨rfl, ?_, by decide⟩
  intro l
  cases hs : l.dropWhile c_isspace with
  | nil =>
    refine ⟨[], l, [], ?_, by simp, ?_, by simp, fun _ => rfl, by simp, by simp⟩
    · simp [trim_white, hs]
    · intro x hx
      exact List.dropWhile_eq_nil_iff.mp hs x hx
  | cons c cs =>
    have hc : c_isspace c = false := dropWhile_head_false _ _ _ _ hs
    obtain ⟨b, hsplit, hball, hhead, hlast⟩ := trim_tail_facts c_isspace c cs hc
    refine ⟨((c :: cs).reverse.dropWhile c_isspace).reverse,
      l.takeWhile c_isspace, b, ?_, ?_, ?_, hball, ?_, ?_, hlast⟩
    · simp [trim_white, hs]
    · conv_lhs => rw [← List.takeWhile_append_dropWhile (p := c_isspace) (l := l), hs, hsplit]
      rw [List.append_assoc]
    · intro x hx
      exact List.mem_takeWhile_imp hx
    · intro hall
      exfalso
      have hnil : l.dropWhile c_isspace = [] :=
        List.dropWhile_eq_nil_iff.mpr (fun x hx => List.all_eq_true.mp hall x hx)
      rw [hs] at hnil
      exact List.cons_ne_nil _ _ hnil
    · intro x hx
      rw [hhead] at hx
      simp only [Option.some.injEq] at hx
      subst hx
      exact hc

/-- C5 counterexample: the claim says the prompt is non-empty after
initialization — default `"shell>"` unless `MY_PROMPT` is set *and
non-empty*.  But the code tests only whether the variable is set: with
`MY_PROMPT` set to the empty string, the initialized prompt is the empty
string, not the default. -/
theorem sh_init_empty_prompt_cex :
    envEmptyPrompt ("MY_PROMPT".toList) = some [] ∧
    (sh_init envEmptyPrompt shZero).prompt = some [] ∧
    some ([] : List Char) ≠ some ("shell>".toList) :=
  ⟨by decide, by decide, by decide⟩

/-- C5 amended: after `sh_init` the prompt is always non-null; it is the
value of `MY_PROMPT` whenever that variable is set (even if the value is
empty), and the default `"shell>"` when it is unset. -/
theorem sh_init_prompt_amended (getenvF : List Char → Option (List Char)) (sh : shell) :
    (sh_init getenvF sh).prompt =
      some ((getenvF ("MY_PROMPT".toList)).getD ("shell>".toList)) ∧
    (sh_init getenvF sh).prompt ≠ none := by
  unfold sh_init get_prompt
  generalize getenvF ("MY_PROMPT".toList) = r
  cases r with
  | none => simp
  | some p => simp

/-- C6: `do_builtin` reports "not handled" on the empty vector and on any
first token other than `exit`, `cd`, `history`; it reports "handled" for
`cd` regardless of the outcome of the directory change (the
operating-system state `os` is arbitrary, so both the success and the
failure of `chdir` are covered), and "handled" for `history`. -/
theorem do_builtin_dispatch (os : OS) :
    ((do_builtin os []).ret = false ∧ (do_builtin os []).exited = false) ∧
    (∀ a rest, a ≠ "exit".toList → a ≠ "cd".toList → a ≠ "history".toList →
      (do_builtin os (a :: rest)).ret = false ∧
      (do_builtin os (a :: rest)).exited = false) ∧
    (∀ rest, (do_builtin os ("cd".toList :: rest)).ret = true ∧
      (do_builtin os ("cd".toList :: rest)).exited = false) ∧
    (∀ rest, (do_builtin os ("history".toList :: rest)).ret = true ∧
      (do_builtin os ("history".toList :: rest)).exited = false) := by
  refine ⟨⟨rfl, rfl⟩, ?_, ?_, ?_⟩
  · intro a rest h1 h2 h3
    simp only [do_builtin]
    rw [if_neg h1, if_neg h2, if_neg h3]
    exact ⟨rfl, rfl⟩
  · intro rest
    simp [do_builtin]
  · intro rest
    simp [do_builtin]

/-- C6 witness: concrete dispatches — `ls` is not handled, `cd` is handled
even though every `chdir` fails in `osBare`. -/
theorem do_builtin_dispatch_witness :
    ("ls".toList ≠ "exit".toList) ∧
    (do_builtin osBare ["ls".toList]).ret = false ∧
    (do_builtin osBare ["cd".toList]).ret = true ∧
    (do_builtin osBare ["history".toList]).ret = true :=
  ⟨by decide,
    ((do_builtin_dispatch osBare).2.1 ("ls".toList) [] (by decide) (by decide) (by decide)).1,
    ((do_builtin_dispatch osBare).2.2.1 []).1,
    ((do_builtin_dispatch osBare).2.2.2 []).1⟩

/-- C7: with no explicit directory argument, `change_dir` resolves the
target as `HOME` first, then the passwd-database home of the real user id,
and when both are unavailable it returns −1 with an error-stream message
without ever calling `chdir` — the working directory is untouched. -/
theorem change_dir_home_resolution (os : OS) :
    (∀ h, os.env ("HOME".toList) = some h →
      (change_dir os none).chdirCalledWith = some h) ∧
    (os.env ("HOME".toList) = none → ∀ h, os.passwd_home = some h →
      (change_dir os none).chdirCalledWith = some h) ∧
    (os.env ("HOME".toList) = none → os.passwd_home = none →
      (change_dir os none).ret = -1 ∧
      (change_dir os none).chdirCalledWith = none ∧
      (change_dir os none).stderrMsgs = ["cd: Could not determine home directory"] ∧
      (change_dir os none).cwd = os.cwd) := by
  refine ⟨?_, ?_, ?_⟩
  · intro h hh
    unfold change_dir
    rw [hh]
    show (attemptChdir os h).chdirCalledWith = some h
    unfold attemptChdir
    by_cases hc : os.chdir_ok h = true
    · rw [if_pos hc]
    · rw [if_neg hc]
  · intro hh h hp
    unfold change_dir
    rw [hh, hp]
    show (attemptChdir os h).chdirCalledWith = some h
    unfold attemptChdir
    by_cases hc : os.chdir_ok h = true
    · rw [if_pos hc]
    · rw [if_neg hc]
  · intro hh hp
    unfold change_dir
    rw [hh, hp]
    exact ⟨rfl, rfl, rfl, rfl⟩

/-- C7 witness: the three resolution outcomes at concrete
operating-system states — `HOME` set, `HOME` unset with a passwd entry,
and neither available. -/
theorem change_dir_home_resolution_witness :
    (change_dir osHome none).chdirCalledWith = some ("/home/user1".toList) ∧
    (change_dir osPasswd none).chdirCalledWith = some ("/home/user2".toList) ∧
    (change_dir osBare none).ret = -1 ∧
    (change_dir osBare none).chdirCalledWith = none :=
  ⟨(change_dir_home_resolution osHome).1 ("/home/user1".toList) (by decide),
    (change_dir_home_resolution osPasswd).2.1 (by decide) ("/home/user2".toList) (by decide),
    ((change_dir_home_resolution osBare).2.2 (by decide) (by decide)).1,
    ((change_dir_home_resolution osBare).2.2 (by decide) (by decide)).2.1⟩

/-- C8: when the underlying `chdir` fails, `change_dir` returns −1, emits
the `perror`-style message on the error stream, and leaves the working
directory unchanged; dispatching such a `cd` through `do_builtin` does not
exit the shell and still reports "handled". -/
theorem change_dir_failure_nonfatal (os : OS) (path : List Char)
    (hfail : os.chdir_ok path = false) :
    (change_dir os (some path)).ret = -1 ∧
    (change_dir os (some path)).stderrMsgs = ["cd: <system error message>"] ∧
    (change_dir os (some path)).cwd = os.cwd ∧
    (do_builtin os ["cd".toList, path]).exited = false ∧
    (do_builtin os ["cd".toList, path]).ret = true ∧
    (do_builtin os ["cd".toList, path]).os.cwd = os.cwd := by
  simp [change_dir, attemptChdir, hfail, do_builtin]

/-- C8 witness: `cd /does/not/exist` in a state where every `chdir`
fails. -/
theorem change_dir_failure_nonfatal_witness :
    osBare.chdir_ok ("/does/not/exist".toList) = false ∧
    (change_dir osBare (some ("/does/not/exist".toList))).ret = -1 ∧
    (do_builtin osBare ["cd".toList, "/does/not/exist".toList]).ret = true :=
  ⟨rfl,
    (change_dir_failure_nonfatal osBare ("/does/not/exist".toList) rfl).1,
    (change_dir_failure_nonfatal osBare ("/does/not/exist".toList) rfl).2.2.2.2.1⟩

/-- C9: with an empty/unavailable history list, `print_history` writes
exactly `Command history is empty.` to the error stream and prints no
listing; otherwise it prints nothing on the error stream and the `i`-th
output line is exactly entry `i` formatted as `<i+1>.) <text>` — every
entry, 1-indexed, consecutive, in order (`formatEntry` is the model of
`printf("%d.) %s\n", index + 1, entry)`). -/
theorem print_history_spec :
    ((print_history none).stderr = ["Command history is empty."] ∧
      (print_history none).stdout = []) ∧
    (∀ es, (print_history (some es)).stderr = [] ∧
      ∀ i, ((print_history (some es)).stdout).get? i =
        (es.get? i).map (fun e => formatEntry (i + 1) e)) ∧
    (print_history (some ["ls".toList, "cd /tmp".toList])).stdout =
      ["1.) ls".toList, "2.) cd /tmp".toList] := by
  refine ⟨⟨rfl, rfl⟩, ?_, by decide⟩
  intro es
  refine ⟨rfl, fun i => ?_⟩
  have h := print_historyLoop_getEntry es 0 i
  simpa [print_history] using h

/-- C10: `trim_white` is idempotent — re-trimming an already trimmed
buffer changes nothing. -/
theorem trim_white_idempotent (l : List Char) :
    trim_white (trim_white (some l)) = trim_white (some l) := by
  cases hs : l.dropWhile c_isspace with
  | nil => simp [trim_white, hs]
  | cons c cs =>
    have hc : c_isspace c = false := dropWhile_head_false _ _ _ _ hs
    obtain ⟨b, hsplit, hball, hhead, hlast⟩ := trim_tail_facts c_isspace c cs hc
    have h1 : trim_white (some l) = some (((c :: cs).reverse.dropWhile c_isspace).reverse) := by
      simp [trim_white, hs]
    rw [h1]
    have hdrop : (((c :: cs).reverse.dropWhile c_isspace).reverse).dropWhile c_isspace =
        ((c :: cs).reverse.dropWhile c_isspace).reverse :=
      dropWhile_eq_self_of_head c_isspace _ c hhead hc
    obtain ⟨x, hx⟩ : ∃ x, (((c :: cs).reverse.dropWhile c_isspace).reverse).getLast? = some x := by
      cases hg : (((c :: cs).reverse.dropWhile c_isspace).reverse).getLast? with
      | none =>
        rw [List.getLast?_eq_none_iff] at hg
        rw [hg] at hhead
        simp at hhead
      | some y => exact ⟨y, rfl⟩
    have hxw : c_isspace x = false := hlast x hx
    have hrevhead : ((((c :: cs).reverse.dropWhile c_isspace).reverse).reverse).head? = some x := by
      rw [List.head?_reverse]
      exact hx
    have hrevdrop : ((((c :: cs).reverse.dropWhile c_isspace).reverse).reverse).dropWhile c_isspace =
        (((c :: cs).reverse.dropWhile c_isspace).reverse).reverse :=
      dropWhile_eq_self_of_head c_isspace _ x hrevhead hxw
    cases hr : ((c :: cs).reverse.dropWhile c_isspace).reverse with
    | nil =>
      rw [hr] at hhead
      simp at hhead
    | cons r0 rs =>
      rw [hr] at hdrop hrevdrop
      simp only [trim_white, hdrop, hrevdrop]
      rw [List.reverse_reverse]
